import Mathlib

/-!
Verification development for the `Crawl_for_Nature.py` crawler.

The Python source is shallowly embedded: strings are `List Char`, the
filesystem is the list of existing file paths, network behaviour is an
explicit environment of boolean-valued oracles, and a Python exception
that escapes a function is an `Except.error`.
-/

namespace Crawl

/-- Characters of a string literal (used only to transcribe Python string
literals from the source). -/
def lc (s : String) : List Char := s.toList

/-! ### HTTP client with retries (`create_session_with_retries`) -/

/-- The retry configuration object built in `create_session_with_retries`
(urllib3 `Retry`): `total=3`, `status_forcelist=[429,500,502,503,504]`,
`allowed_methods=["HEAD","GET","OPTIONS"]`, `backoff_factor=1`. -/
structure RetryPolicy where
  total : Nat
  status_forcelist : List Nat
  allowed_methods : List (List Char)
  backoff_factor : Nat
deriving DecidableEq

/-- Embeds `create_session_with_retries`: the retry policy mounted on the
session's HTTP adapters. -/
def create_session_with_retries : RetryPolicy :=
  { total := 3
  , status_forcelist := [429, 500, 502, 503, 504]
  , allowed_methods := [lc "HEAD", lc "GET", lc "OPTIONS"]
  , backoff_factor := 1 }

/-- A response status is retried when it lies in the policy's
`status_forcelist`. -/
def isRetryableStatus (p : RetryPolicy) (s : Nat) : Bool :=
  p.status_forcelist.contains s

/-- Modelled from the semantics of the external urllib3 library (not part of
this repository): the retry loop of `HTTPConnectionPool.urlopen` driven by a
`Retry` object.  `statusAt i` is the status of the `i`-th response.  Each
response whose status is in the forcelist consumes one unit of `total`;
a request is always issued first, and when `total` is already exhausted the
retry state increments below zero and `MaxRetryError` is raised after that
final request.  The function returns the number of requests issued before
the loop returns a response or gives up. -/
def urlopenAttempts (p : RetryPolicy) (statusAt : Nat → Nat) : Nat → Nat → Nat
  | 0, i => i + 1
  | t + 1, i =>
    if isRetryableStatus p (statusAt i) then urlopenAttempts p statusAt t (i + 1)
    else i + 1

/-- Number of HTTP requests a session built by `create_session_with_retries`
issues for one `get`, given the stream of response statuses. -/
def sessionAttempts (statusAt : Nat → Nat) : Nat :=
  urlopenAttempts create_session_with_retries statusAt
    create_session_with_retries.total 0

/-! ### `sanitize_filename` -/

/-- The character class of the regex `[<>:"/\\|?*]` in `sanitize_filename`. -/
def badChars : List Char := ['<', '>', ':', '"', '/', '\\', '|', '?', '*']

/-- First substitution in `sanitize_filename`:
`re.sub(r'[<>:"/\\|?*]', '_', name)`. -/
def replaceBadChars (s : List Char) : List Char :=
  s.map (fun c => if badChars.contains c then '_' else c)

/-- ASCII whitespace recognised by Python's `\s` and `str.strip`. -/
def isPySpace (c : Char) : Bool :=
  c = ' ' || c = '\t' || c = '\n' || c = '\x0d' || c = '\x0c' || c = '\x0b'

/-- Worker for `re.sub(r'\s+', ' ', name)`: the flag records whether the
previous character belonged to a whitespace run already emitted as `' '`. -/
def collapseWsAux : Bool → List Char → List Char
  | _, [] => []
  | prev, c :: rest =>
    if isPySpace c then
      if prev then collapseWsAux true rest
      else ' ' :: collapseWsAux true rest
    else c :: collapseWsAux false rest

/-- Second substitution in `sanitize_filename`: every maximal whitespace run
becomes a single space. -/
def collapseWs (s : List Char) : List Char := collapseWsAux false s

/-- Python `str.strip()`: drop leading and trailing whitespace. -/
def pyStrip (s : List Char) : List Char :=
  ((s.dropWhile isPySpace).reverse.dropWhile isPySpace).reverse

/-- Embeds `sanitize_filename`: replace illegal characters by `'_'`,
collapse whitespace, strip, and truncate to 180 characters (`[:180]`). -/
def sanitize_filename (name : List Char) : List Char :=
  (pyStrip (collapseWs (replaceBadChars name))).take 180

/-! ### `download_file`: destination path derivation -/

/-- `original_filename = url.split("/")[-1].split("?")[0]` in
`download_file`. -/
def original_filename (url : List Char) : List Char :=
  (((url.splitOn '/').getLastD []).splitOn '?').headD []

/-- `extension = original_filename.split('.')[-1] if '.' in
original_filename else 'download'` in `download_file`. -/
def extension (url : List Char) : List Char :=
  let ofn := original_filename url
  if ofn.contains '.' then (ofn.splitOn '.').getLastD [] else lc "download"

/-- `local_filename = f"<pfx><base>.<extension>"` in `download_file`. -/
def local_filename ( pfx base url : List Char) : List Char :=
  pfx ++ base ++ '.' :: extension url

/-- Model of `os.path.join` (posix form) used for `local_path`. -/
def path_join (a b : List Char) : List Char :=
  if b.headD ' ' = '/' then b
  else if a = [] then b
  else if a.getLastD ' ' = '/' then a ++ b
  else a ++ '/' :: b

/-- `local_path = os.path.join(dest_folder, local_filename)` in
`download_file`. -/
def local_path (destFolder pfx base url : List Char) : List Char :=
  path_join destFolder (local_filename pfx base url)

/-! ### `download_file`: effectful behaviour -/

/-- The filesystem: the set of file paths that currently exist. -/
abbrev FS := List (List Char)

/-- Oracles for the effects reachable from `download_file`:
whether `os.makedirs(dest_folder, exist_ok=True)` raises for a folder,
whether `session.get(url, stream=True)` / `raise_for_status()` raises for a
URL, whether `open(local_path, 'wb')` itself raises for a path (e.g.
`ENAMETOOLONG`; no file is created), and whether iterating and writing the
body raises midway (after the destination file has been opened, so a
partial file remains). -/
structure DlEnv where
  mkdirFails : List Char → Bool
  getRaises : List Char → Bool
  openFails : List Char → Bool
  streamFails : List Char → Bool

deriving instance DecidableEq for Except

/-- Outcome of one `download_file` call: the Python return value
(`Except.error` = an exception escaped the function), the filesystem
afterwards, and the number of network requests issued by this call. -/
structure DlOut where
  ret : Except Unit Bool
  fs : FS
  reqs : Nat
deriving DecidableEq

/-- Embeds `download_file(session, url, dest_folder, file_prefix,
base_filename)`.  `os.makedirs` runs before the `try`, so its exception
escapes.  Inside the `try`: if the derived `local_path` exists the call
returns `True` with no request; otherwise the URL is fetched — a request
exception yields `False` (caught) with no file created, a failure of
`open(local_path, 'wb')` itself yields `False` with no file created, a
streaming failure after the file was opened yields `False` but leaves the
partially written file on disk, and success writes the file and returns
`True`. -/
def download_file (env : DlEnv) (fs : FS)
    (url destFolder pfx base : List Char) : DlOut :=
  if env.mkdirFails destFolder then ⟨.error (), fs, 0⟩
  else
    let lp := local_path destFolder pfx base url
    if lp ∈ fs then ⟨.ok true, fs, 0⟩
    else if env.getRaises url then ⟨.ok false, fs, 1⟩
    else if env.openFails lp then ⟨.ok false, fs, 1⟩
    else if env.streamFails url then ⟨.ok false, lp :: fs, 1⟩
    else ⟨.ok true, lp :: fs, 1⟩

/-! ### `get_all_download_links` -/

/-- An `<a>` element of the parsed page: its HTML classes, its optional
`href` attribute, and its text content (the anchors of these pages carry a
single text node, so `get_text()` is the raw text and `get_text(strip=True)`
strips it). -/
structure Anchor where
  cls : List (List Char)
  href : Option (List Char)
  text : List Char
deriving DecidableEq

/-- The `links` dictionary built by `get_all_download_links`; an absent
key is `none`. -/
structure Links where
  pdf : Option (List Char)
  supp : Option (List Char)
  peer : Option (List Char)
deriving DecidableEq

/-- Python substring containment `needle in hay`. -/
def containsSub (needle : List Char) : List Char → Bool
  | [] => needle.isEmpty
  | c :: rest => needle.isPrefixOf (c :: rest) || containsSub needle rest

/-- `all_a_tags = soup.find_all('a', href=True)`: the page's anchors, in
document order, restricted to those carrying an `href`. -/
def all_a_tags (anchors : List Anchor) : List Anchor :=
  anchors.filter (fun a => a.href.isSome)

/-- `soup.find('a', class_='c-pdf-download__link')`: first anchor, in
document order, among ALL anchors (no `href` requirement), whose class list
contains the marker class. -/
def find_pdf_tag (anchors : List Anchor) : Option Anchor :=
  anchors.find? (fun a => a.cls.contains (lc "c-pdf-download__link"))

/-- The fallback loop for the pdf link: first `href`-bearing anchor whose
`get_text()` contains `"Download PDF"` or whose `href` ends with `".pdf"`,
resolved with `urljoin` (passed as `uj`). -/
def pdf_fallback (uj : List Char → List Char → List Char)
    (url : List Char) (anchors : List Anchor) : Option (List Char) :=
  ((all_a_tags anchors).find? (fun a =>
      containsSub (lc "Download PDF") a.text
        || (lc ".pdf").isSuffixOf (a.href.getD []))).map
    (fun a => uj url (a.href.getD []))

/-- The supplementary-information loop: first `href`-bearing anchor whose
`get_text(strip=True)` contains `"Supplementary Information"`. -/
def supp_link (uj : List Char → List Char → List Char)
    (url : List Char) (anchors : List Anchor) : Option (List Char) :=
  ((all_a_tags anchors).find? (fun a =>
      containsSub (lc "Supplementary Information") (pyStrip a.text))).map
    (fun a => uj url (a.href.getD []))

/-- The peer-review loop: first `href`-bearing anchor whose
`get_text(strip=True)` contains `"Peer Review File"`. -/
def peer_link (uj : List Char → List Char → List Char)
    (url : List Char) (anchors : List Anchor) : Option (List Char) :=
  ((all_a_tags anchors).find? (fun a =>
      containsSub (lc "Peer Review File") (pyStrip a.text))).map
    (fun a => uj url (a.href.getD []))

/-- Link extraction of `get_all_download_links` on an already-parsed page.
When the class-marked pdf anchor exists, `pdf_tag['href']` is read: if that
anchor has no `href` this raises `KeyError`, which is not a
`requests.exceptions.RequestException` and therefore escapes the function
(`Except.error`).  Otherwise the three keys are filled by the loops. -/
def extract_links (uj : List Char → List Char → List Char)
    (url : List Char) (anchors : List Anchor) : Except Unit Links :=
  match find_pdf_tag anchors with
  | some t =>
    match t.href with
    | some h =>
      .ok ⟨some (uj url h), supp_link uj url anchors, peer_link uj url anchors⟩
    | none => .error ()
  | none =>
    .ok ⟨pdf_fallback uj url anchors, supp_link uj url anchors,
         peer_link uj url anchors⟩

/-! ### Crawl orchestration (`main`) -/

/-- One article card found on the collection page.  `titleA` is the `<a>`
nested in the `h3`/`h2` title element (`none` when the card has no title
element or the title has no link, in which case the loop `continue`s). -/
structure ArticleCard where
  titleA : Option Anchor
deriving DecidableEq

/-- The deterministic remote/world the crawl runs against: whether the
collection page fetch succeeds, the article cards parsed from it, whether
an article page fetch succeeds, the anchors of each article page, and the
effect oracles for file downloads. -/
structure CrawlEnv where
  fetchCollectionOk : Bool
  cards : List ArticleCard
  pageFetchOk : List Char → Bool
  pageAnchors : List Char → List Anchor
  dl : DlEnv

/-- Embeds `get_all_download_links(session, article_url)` end to end: a
failing page fetch is a `RequestException`, caught by the function itself,
which then returns the empty `links` dictionary; a successful fetch runs
the extraction (whose `KeyError` escapes). -/
def get_all_download_links (uj : List Char → List Char → List Char)
    (env : CrawlEnv) (article_url : List Char) : Except Unit Links :=
  if env.pageFetchOk article_url then
    extract_links uj article_url (env.pageAnchors article_url)
  else .ok ⟨none, none, none⟩

/-- `collection_url` constant of `main`. -/
def collection_url : List Char := lc "https://www.nature.com/collections/gxfyskqtkm"

/-- `base_site` constant of `main`. -/
def base_site : List Char := lc "https://www.nature.com"

/-- Python `str.strip('/')`. -/
def stripChar (c : Char) (s : List Char) : List Char :=
  ((s.dropWhile (· == c)).reverse.dropWhile (· == c)).reverse

/-- `collection_name = "Nature Collection " + collection_url.strip('/').split('/')[-1]`. -/
def collection_name : List Char :=
  lc "Nature Collection " ++ ((stripChar '/' collection_url).splitOn '/').getLastD []

/-- Filesystem, download-request count and raised-flag threaded through the
body of the per-article `try`. -/
structure StepResult where
  fs : FS
  reqs : Nat
  raised : Bool
deriving DecidableEq

/-- One `if kind in download_links: download_file(...)` step of `main`.
A state already marked raised is past the point where the per-article
exception fired, so nothing further runs.  The boolean returned by
`download_file` is discarded by `main`; only an escaping exception
(`ret = error`, i.e. `os.makedirs` raised) marks the state raised. -/
def doKind (env : DlEnv) (st : StepResult) (link : Option (List Char))
    (folder pfx base : List Char) : StepResult :=
  if st.raised then st
  else
    match link with
    | none => st
    | some u =>
      let d := download_file env st.fs u folder pfx base
      match d.ret with
      | .error _ => ⟨d.fs, st.reqs + d.reqs, true⟩
      | .ok _ => ⟨d.fs, st.reqs + d.reqs, false⟩

/-- Body of the per-article `try` in `main` for one card: a card without a
title link is skipped (`continue`); reading `title_tag.a['href']` raises
`KeyError` when the title anchor has no `href`; then links are extracted
(an escaping `KeyError` there is also caught by the per-article handler);
an empty mapping logs a warning and `continue`s; otherwise the pdf, supp
and peer downloads run in order into the article folder. -/
def processArticle (uj : List Char → List Char → List Char)
    (env : CrawlEnv) (fs : FS) (card : ArticleCard) : StepResult :=
  match card.titleA with
  | none => ⟨fs, 0, false⟩
  | some a =>
    match a.href with
    | none => ⟨fs, 0, true⟩
    | some h =>
      let sanitized_title := sanitize_filename (pyStrip a.text)
      let article_folder := path_join collection_name sanitized_title
      let article_link := uj base_site h
      match get_all_download_links uj env article_link with
      | .error _ => ⟨fs, 0, true⟩
      | .ok links =>
        if links = ⟨none, none, none⟩ then ⟨fs, 0, false⟩
        else
          let s1 := doKind env.dl ⟨fs, 0, false⟩ links.pdf article_folder
            (lc "PDF_") sanitized_title
          let s2 := doKind env.dl s1 links.supp article_folder
            (lc "Supp_") sanitized_title
          doKind env.dl s2 links.peer article_folder
            (lc "PeerReview_") sanitized_title

/-- The `for article in articles` loop of `main`: each card is processed
inside a `try` whose `except Exception` logs and `continue`s, so a raised
flag never stops the fold.  Returns the final filesystem and the total
number of file-download network requests. -/
def crawlLoop (uj : List Char → List Char → List Char)
    (env : CrawlEnv) : FS → List ArticleCard → FS × Nat
  | fs, [] => (fs, 0)
  | fs, c :: cs =>
    let r := processArticle uj env fs c
    let rest := crawlLoop uj env r.fs cs
    (rest.1, r.reqs + rest.2)

/-- Embeds `main`: a failed collection-page fetch (or an empty card list)
ends the run before any article is processed; otherwise the article loop
runs.  The pair is (filesystem afterwards, file-download requests
issued). -/
def main (uj : List Char → List Char → List Char)
    (env : CrawlEnv) (fs : FS) : FS × Nat :=
  if env.fetchCollectionOk then
    if env.cards.isEmpty then (fs, 0)
    else crawlLoop uj env fs env.cards
  else (fs, 0)

/-! ### Shared helper lemmas -/

/-- A `download_file` call whose `os.makedirs` succeeds never lets an
exception escape: every branch inside the `try` returns a boolean. -/
theorem download_file_ret_not_error (env : DlEnv) (fs : FS)
    (url destFolder pfx base : List Char)
    (hm : env.mkdirFails destFolder = false) :
    (download_file env fs url destFolder pfx base).ret ≠ Except.error () := by
  unfold download_file
  rw [if_neg (by simp [hm])]
  dsimp only
  split
  · intro h
    exact Except.noConfusion h
  · split
    · intro h
      exact Except.noConfusion h
    · split
      · intro h
        exact Except.noConfusion h
      · split
        · intro h
          exact Except.noConfusion h
        · intro h
          exact Except.noConfusion h

/-- `download_file` only ever adds paths to the filesystem. -/
theorem download_file_fs_mono (env : DlEnv) (fs : FS)
    (url destFolder pfx base : List Char) :
    ∀ q, q ∈ fs → q ∈ (download_file env fs url destFolder pfx base).fs := by
  intro q hq
  unfold download_file
  split
  · exact hq
  · dsimp only
    split
    · exact hq
    · split
      · exact hq
      · split
        · exact hq
        · split
          · exact List.mem_cons_of_mem _ hq
          · exact List.mem_cons_of_mem _ hq

/-- When the directory is creatable, the URL is fetchable and the
destination path is openable, the derived destination path exists after
the call (it is either skipped because already present, fully written, or
left as a partial file). -/
theorem download_file_creates (env : DlEnv) (fs : FS)
    (url destFolder pfx base : List Char)
    (hm : env.mkdirFails destFolder = false)
    (hg : env.getRaises url = false)
    (ho : env.openFails (local_path destFolder pfx base url) = false) :
    local_path destFolder pfx base url
      ∈ (download_file env fs url destFolder pfx base).fs := by
  unfold download_file
  rw [if_neg (by simp [hm])]
  dsimp only
  split
  · assumption
  · rw [if_neg (by simp [hg]), if_neg (by simp [ho])]
    split
    · exact List.mem_cons_self _ _
    · exact List.mem_cons_self _ _

/-- The existing-file skip path of `download_file`: directory creation
succeeds, the derived path is on disk, so the call returns `True`, leaves
the filesystem unchanged and issues no request. -/
theorem download_file_skip (env : DlEnv) (fs : FS)
    (url destFolder pfx base : List Char)
    (hm : env.mkdirFails destFolder = false)
    (hex : local_path destFolder pfx base url ∈ fs) :
    download_file env fs url destFolder pfx base = ⟨.ok true, fs, 0⟩ := by
  unfold download_file
  rw [if_neg (by simp [hm])]
  dsimp only
  rw [if_pos hex]

/-- Shared concrete `urljoin` stand-in used by witnesses: resolution that
returns the link target itself. -/
def ujId : List Char → List Char → List Char := fun _ r => r

/-- Shared benign download environment: no effect ever fails. -/
def benignDl : DlEnv := ⟨fun _ => false, fun _ => false, fun _ => false, fun _ => false⟩

/-! ### C1: retry attempt bound -/

/-- C1 counterexample: 503 is in the retryable set, yet on a stream of
503 responses the session built by `create_session_with_retries`
(urllib3 `Retry(total=3)`) issues 4 requests — the initial attempt plus 3
retries — not at most 3 as the claim states. -/
theorem c1_counterexample :
    isRetryableStatus create_session_with_retries 503 = true ∧
    sessionAttempts (fun _ => 503) = 4 := by decide

/-- C1 (amended): for every URL whose responses all carry a retryable
status, the session built by `create_session_with_retries` issues exactly
4 request attempts (1 initial + `total = 3` retries) before giving up. -/
theorem c1_retry_attempts (statusAt : Nat → Nat)
    (h : ∀ i, isRetryableStatus create_session_with_retries (statusAt i) = true) :
    sessionAttempts statusAt = 4 := by
  have step : ∀ t i,
      urlopenAttempts create_session_with_retries statusAt (t + 1) i
        = urlopenAttempts create_session_with_retries statusAt t (i + 1) := by
    intro t i
    simp [urlopenAttempts, h i]
  show urlopenAttempts create_session_with_retries statusAt (2 + 1) 0 = 4
  rw [step 2 0]
  show urlopenAttempts create_session_with_retries statusAt (1 + 1) 1 = 4
  rw [step 1 1]
  show urlopenAttempts create_session_with_retries statusAt (0 + 1) 2 = 4
  rw [step 0 2]
  rfl

/-- C1 witness: the amended bound evaluated on the constant-503 stream. -/
theorem c1_retry_attempts_witness : sessionAttempts (fun _ => 503) = 4 :=
  c1_retry_attempts (fun _ => 503) (fun _ => rfl)

/-! ### C5: `sanitize_filename` output -/

/-- Every character emitted by the whitespace-collapsing pass is either a
space or came from the input. -/
theorem mem_collapseWsAux {c : Char} :
    ∀ (b : Bool) (s : List Char), c ∈ collapseWsAux b s → c = ' ' ∨ c ∈ s := by
  intro b s
  induction s generalizing b with
  | nil =>
    intro h
    simp [collapseWsAux] at h
  | cons d rest ih =>
    intro h
    unfold collapseWsAux at h
    split at h
    · split at h
      · rcases ih _ h with h' | h'
        · exact Or.inl h'
        · exact Or.inr (List.mem_cons_of_mem _ h')
      · rcases List.mem_cons.mp h with h' | h'
        · exact Or.inl h'
        · rcases ih _ h' with h'' | h''
          · exact Or.inl h''
          · exact Or.inr (List.mem_cons_of_mem _ h'')
    · rcases List.mem_cons.mp h with h' | h'
      · exact Or.inr (h' ▸ List.mem_cons_self _ _)
      · rcases ih _ h' with h'' | h''
        · exact Or.inl h''
        · exact Or.inr (List.mem_cons_of_mem _ h'')

/-- After the first substitution of `sanitize_filename` no character of
the regex class `[<>:"/\\|?*]` survives. -/
theorem not_bad_of_mem_replaceBadChars {c : Char} {s : List Char}
    (h : c ∈ replaceBadChars s) : badChars.contains c = false := by
  rcases List.mem_map.mp h with ⟨a, _, rfl⟩
  by_cases ha : badChars.contains a = true
  · rw [if_pos ha]
    decide
  · rw [if_neg ha]
    simpa using ha

/-- Characters survive `pyStrip` only from the input. -/
theorem mem_of_mem_pyStrip {c : Char} {s : List Char}
    (h : c ∈ pyStrip s) : c ∈ s := by
  unfold pyStrip at h
  have h1 := List.mem_reverse.mp h
  have h2 := (List.dropWhile_sublist (l := (s.dropWhile isPySpace).reverse)
    isPySpace).subset h1
  have h3 := List.mem_reverse.mp h2
  exact (List.dropWhile_sublist (l := s) isPySpace).subset h3

/-- C5 (confirmed): for every input string, the output of
`sanitize_filename` contains none of the characters of the class
`[<>:"/\\|?*]` and has length at most 180 characters. -/
theorem c5_sanitize_filename (s : List Char) :
    (sanitize_filename s).length ≤ 180 ∧
    ∀ c, c ∈ sanitize_filename s → badChars.contains c = false := by
  constructor
  · exact List.length_take_le 180 _
  · intro c hc
    have h1 : c ∈ pyStrip (collapseWs (replaceBadChars s)) :=
      List.mem_of_mem_take hc
    have h2 : c ∈ collapseWs (replaceBadChars s) := mem_of_mem_pyStrip h1
    rcases mem_collapseWsAux false _ h2 with h3 | h3
    · subst h3
      decide
    · exact not_bad_of_mem_replaceBadChars h3

/-- C5 witness: the sanitizer evaluated on a concrete dirty name; the
surviving character `'a'` is checked against the forbidden class through
the theorem. -/
theorem c5_sanitize_filename_witness :
    'a' ∈ sanitize_filename (lc "a<b*c") ∧ badChars.contains 'a' = false :=
  ⟨by decide, (c5_sanitize_filename (lc "a<b*c")).2 'a' (by decide)⟩

/-! ### C2: `download_file` exception containment -/

/-- C2 counterexample: `os.makedirs(dest_folder, exist_ok=True)` runs
before the `try` block of `download_file`, so when directory creation
fails the exception escapes to the caller instead of a `False` return. -/
theorem c2_counterexample :
    (download_file ⟨fun _ => true, fun _ => false, fun _ => false, fun _ => false⟩ []
        (lc "https://www.nature.com/articles/a1.pdf")
        (lc "Nature Collection gxfyskqtkm/T") (lc "PDF_") (lc "T")).ret
      = Except.error () := by decide

/-- C2 (amended): for every call of `download_file` in which creating the
destination directory succeeds, the function returns a boolean (`True` on
success or skip, `False` on failure) and never lets an exception
propagate; only a failing `os.makedirs` — which runs before the `try` —
escapes. -/
theorem c2_download_file_no_escape (env : DlEnv) (fs : FS)
    (url destFolder pfx base : List Char)
    (hm : env.mkdirFails destFolder = false) :
    (download_file env fs url destFolder pfx base).ret = .ok true ∨
    (download_file env fs url destFolder pfx base).ret = .ok false := by
  cases hret : (download_file env fs url destFolder pfx base).ret with
  | error e =>
    cases e
    exact absurd hret (download_file_ret_not_error env fs url destFolder pfx base hm)
  | ok b =>
    cases b
    · exact Or.inr rfl
    · exact Or.inl rfl

/-- C2 witness: a concrete failing download (the URL raises) still returns
a boolean. -/
theorem c2_download_file_no_escape_witness :
    (download_file ⟨fun _ => false, fun _ => true, fun _ => false, fun _ => false⟩ []
        (lc "https://n/a.pdf") (lc "D") (lc "PDF_") (lc "t")).ret = .ok true ∨
    (download_file ⟨fun _ => false, fun _ => true, fun _ => false, fun _ => false⟩ []
        (lc "https://n/a.pdf") (lc "D") (lc "PDF_") (lc "t")).ret = .ok false :=
  c2_download_file_no_escape ⟨fun _ => false, fun _ => true, fun _ => false, fun _ => false⟩ []
    (lc "https://n/a.pdf") (lc "D") (lc "PDF_") (lc "t") rfl

/-! ### C3: destination path determinism -/

/-- C3 counterexample: with collection folder, sanitized title and kind
prefix all fixed, two download URLs yield different destination paths —
the extension derived from the URL enters the path, so the path is not a
function of (collection name, sanitized title, prefix) alone. -/
theorem c3_counterexample :
    local_path (lc "Nature Collection gxfyskqtkm/Title One") (lc "PDF_")
        (lc "Title One") (lc "https://n/f.pdf")
      ≠ local_path (lc "Nature Collection gxfyskqtkm/Title One") (lc "PDF_")
        (lc "Title One") (lc "https://n/f") := by decide

/-- C3 (amended): the destination path of `download_file` is a pure
function of the destination folder (collection name + sanitized title),
the kind prefix, the base filename, and the extension derived from the
URL: two calls for the same (article, kind) whose URLs derive the same
extension always target the same path. -/
theorem c3_path_deterministic (destFolder pfx base u1 u2 : List Char)
    (h : extension u1 = extension u2) :
    local_path destFolder pfx base u1 = local_path destFolder pfx base u2 := by
  unfold local_path local_filename
  rw [h]

/-- C3 witness: two distinct URLs with equal derived extensions map to the
same destination path. -/
theorem c3_path_deterministic_witness :
    extension (lc "https://n/a.pdf") = extension (lc "https://m/b.pdf") ∧
    local_path (lc "C/T") (lc "PDF_") (lc "T") (lc "https://n/a.pdf")
      = local_path (lc "C/T") (lc "PDF_") (lc "T") (lc "https://m/b.pdf") :=
  ⟨by decide, c3_path_deterministic (lc "C/T") (lc "PDF_") (lc "T")
    (lc "https://n/a.pdf") (lc "https://m/b.pdf") (by decide)⟩

/-! ### C4: existing file short-circuits -/

/-- C4 (confirmed): whenever the derived destination file already exists
on disk, `download_file` returns `True`, leaves the filesystem unchanged
and issues no network request.  (The hypothesis that `os.makedirs`
succeeds is forced by the filesystem itself: if the destination file
exists then its directory exists and `exist_ok=True` makes the call a
no-op.) -/
theorem c4_skip_existing (env : DlEnv) (fs : FS)
    (url destFolder pfx base : List Char)
    (hm : env.mkdirFails destFolder = false)
    (hex : local_path destFolder pfx base url ∈ fs) :
    download_file env fs url destFolder pfx base = ⟨.ok true, fs, 0⟩ :=
  download_file_skip env fs url destFolder pfx base hm hex

/-- C4 witness: a concrete filesystem already holding the derived path. -/
theorem c4_skip_existing_witness :
    download_file benignDl [lc "D/PDF_t.pdf"] (lc "https://n/x.pdf")
        (lc "D") (lc "PDF_") (lc "t") = ⟨.ok true, [lc "D/PDF_t.pdf"], 0⟩ :=
  c4_skip_existing benignDl [lc "D/PDF_t.pdf"] (lc "https://n/x.pdf")
    (lc "D") (lc "PDF_") (lc "t") rfl (by decide)

/-! ### C10: extension derivation -/

/-- Follows the claim's words, for comparison only: the query string is
stripped at the first `'?'` of the whole URL first, and the final path
segment is taken afterwards.  The source (`original_filename` /
`extension`) does the two steps in the opposite order. -/
def extension_claimed (url : List Char) : List Char :=
  let stripped := (url.splitOn '?').headD []
  let seg := (stripped.splitOn '/').getLastD []
  if seg.contains '.' then (seg.splitOn '.').getLastD [] else lc "download"

/-- C10 counterexample: (i) a URL whose last segment ends in `'.'` gets an
EMPTY extension, refuting "a non-empty ext"; (ii) on a URL whose query
string contains a `'/'` the code first splits on `'/'` and only then
strips at `'?'`, so it extracts `"pdf"` where the claim's
strip-query-first reading extracts `"download"`. -/
theorem c10_counterexample :
    extension (lc "https://x/file.") = [] ∧
    extension (lc "https://h/a?b=/c.pdf") = lc "pdf" ∧
    extension_claimed (lc "https://h/a?b=/c.pdf") = lc "download" := by decide

/-- C10 (amended): the extension is computed from the URL's last
`'/'`-separated segment, with any query string then stripped at the first
`'?'` of that segment; when the segment contains no `'.'` the literal
extension `"download"` is used; every fresh successful download writes
exactly the path `dest_folder/<prefix><base>.<ext>`, where `<ext>` may be
empty (a segment ending in `'.'`). -/
theorem c10_extension_shape (env : DlEnv) (fs : FS)
    (url destFolder pfx base : List Char)
    (hm : env.mkdirFails destFolder = false)
    (hg : env.getRaises url = false)
    (ho : env.openFails (local_path destFolder pfx base url) = false)
    (hs : env.streamFails url = false)
    (hnew : local_path destFolder pfx base url ∉ fs) :
    download_file env fs url destFolder pfx base
      = ⟨.ok true,
         path_join destFolder (pfx ++ base ++ '.' :: extension url) :: fs, 1⟩ ∧
    ((original_filename url).contains '.' = false → extension url = lc "download") := by
  constructor
  · unfold download_file
    rw [if_neg (by simp [hm])]
    dsimp only
    rw [if_neg hnew, if_neg (by simp [hg]), if_neg (by simp [ho]),
      if_neg (by simp [hs])]
    rfl
  · intro hdot
    have hdot' : '.' ∉ original_filename url := by simpa using hdot
    unfold extension
    simp [hdot']

/-- C10 witness: a fresh download of a dotless URL lands at the literal
`.download` path. -/
theorem c10_extension_shape_witness :
    download_file benignDl [] (lc "https://n/supp") (lc "D") (lc "Supp_") (lc "t")
      = ⟨.ok true,
         path_join (lc "D") (lc "Supp_" ++ lc "t" ++ '.' :: extension (lc "https://n/supp")) :: [],
         1⟩ ∧
    ((original_filename (lc "https://n/supp")).contains '.' = false →
      extension (lc "https://n/supp") = lc "download") :=
  c10_extension_shape benignDl [] (lc "https://n/supp") (lc "D") (lc "Supp_")
    (lc "t") rfl rfl rfl rfl (by decide)

/-! ### C6 and C7: link extraction -/

/-- A parsed article page on which the class-marked pdf anchor carries no
`href` (legal HTML: `find('a', class_=...)` does not require one), while a
fallback "Download PDF" anchor is available. -/
def pageNoHrefPdf : List Anchor :=
  [⟨[lc "c-pdf-download__link"], none, []⟩,
   ⟨[], some (lc "/x.pdf"), lc "Download PDF"⟩]

/-- Environment serving `pageNoHrefPdf` for every article URL. -/
def envNoHrefPdf : CrawlEnv :=
  ⟨true, [], fun _ => true, fun _ => pageNoHrefPdf, benignDl⟩

/-- C6 counterexample: on a page that does contain an anchor with class
`c-pdf-download__link` (and even a fallback anchor), reading
`pdf_tag['href']` raises `KeyError`, which escapes
`get_all_download_links` — no mapping is returned at all, so the function
neither selects the primary-marker link nor falls back nor omits the
`'pdf'` key. -/
theorem c6_counterexample :
    find_pdf_tag pageNoHrefPdf = some ⟨[lc "c-pdf-download__link"], none, []⟩ ∧
    pdf_fallback ujId (lc "https://n/a") pageNoHrefPdf = some (lc "/x.pdf") ∧
    get_all_download_links ujId envNoHrefPdf (lc "https://n/a")
      = Except.error () := by decide

/-- C6 (amended): on every fetched and parsed article page, when an anchor
with class `c-pdf-download__link` exists, its `href` is selected as the
pdf link if it has one, and the extraction raises a `KeyError` that
escapes the function if it has none; when no such anchor exists the pdf
link is the first `href`-bearing anchor, in document order, whose text
contains "Download PDF" or whose `href` ends in `".pdf"`, and the `'pdf'`
key is absent when no anchor matches. -/
theorem c6_pdf_selection (uj : List Char → List Char → List Char)
    (env : CrawlEnv) (url : List Char)
    (hfetch : env.pageFetchOk url = true) :
    (∀ t h, find_pdf_tag (env.pageAnchors url) = some t → t.href = some h →
      get_all_download_links uj env url
        = .ok ⟨some (uj url h), supp_link uj url (env.pageAnchors url),
               peer_link uj url (env.pageAnchors url)⟩) ∧
    (∀ t, find_pdf_tag (env.pageAnchors url) = some t → t.href = none →
      get_all_download_links uj env url = .error ()) ∧
    (find_pdf_tag (env.pageAnchors url) = none →
      get_all_download_links uj env url
        = .ok ⟨pdf_fallback uj url (env.pageAnchors url),
               supp_link uj url (env.pageAnchors url),
               peer_link uj url (env.pageAnchors url)⟩) := by
  unfold get_all_download_links
  rw [if_pos hfetch]
  refine ⟨?_, ?_, ?_⟩
  · intro t h ht hh
    unfold extract_links
    rw [ht]
    dsimp only
    rw [hh]
  · intro t ht hh
    unfold extract_links
    rw [ht]
    dsimp only
    rw [hh]
  · intro ht
    unfold extract_links
    rw [ht]

/-- Page with a proper primary pdf anchor, used by the C6 witness. -/
def pagePrimaryPdf : List Anchor :=
  [⟨[lc "c-pdf-download__link"], some (lc "https://n/art1.pdf"), lc "Download PDF"⟩]

/-- Environment serving `pagePrimaryPdf`. -/
def envPrimaryPdf : CrawlEnv :=
  ⟨true, [], fun _ => true, fun _ => pagePrimaryPdf, benignDl⟩

/-- C6 witness: the primary-marker branch evaluated on a concrete page. -/
theorem c6_pdf_selection_witness :
    get_all_download_links ujId envPrimaryPdf (lc "https://n/a")
      = .ok ⟨some (lc "https://n/art1.pdf"), none, none⟩ := by
  rw [(c6_pdf_selection ujId envPrimaryPdf (lc "https://n/a") rfl).1
    ⟨[lc "c-pdf-download__link"], some (lc "https://n/art1.pdf"), lc "Download PDF"⟩
    (lc "https://n/art1.pdf") (by decide) rfl]
  decide

/-- A parsed article page with an `href`-less primary pdf anchor AND a
matching supplementary anchor. -/
def pageNoHrefPdfSupp : List Anchor :=
  [⟨[lc "c-pdf-download__link"], none, []⟩,
   ⟨[], some (lc "/supp.zip"), lc " Supplementary Information "⟩]

/-- Environment serving `pageNoHrefPdfSupp`. -/
def envNoHrefPdfSupp : CrawlEnv :=
  ⟨true, [], fun _ => true, fun _ => pageNoHrefPdfSupp, benignDl⟩

/-- C7 counterexample: the page holds an anchor whose whitespace-trimmed
text contains "Supplementary Information", yet `get_all_download_links`
returns no mapping at all — the `KeyError` raised on the `href`-less
class-marked pdf anchor (processed first) escapes, so the supplementary
key is neither present nor "silently omitted". -/
theorem c7_counterexample :
    containsSub (lc "Supplementary Information")
        (pyStrip (lc " Supplementary Information ")) = true ∧
    get_all_download_links ujId envNoHrefPdfSupp (lc "https://n/a")
      = Except.error () := by decide

/-- C7 (amended): on every fetched and parsed article page on which the
pdf step does not raise (any class-marked pdf anchor carries an `href`),
the returned mapping's supplementary entry is the first `href`-bearing
anchor, in document order, whose whitespace-trimmed text contains the
case-sensitive substring "Supplementary Information", and its peer-review
entry is likewise the first whose trimmed text contains
"Peer Review File", each resolved against the article URL; a kind with no
matching anchor is absent (`none`) rather than an error. -/
theorem c7_supp_peer_selection (uj : List Char → List Char → List Char)
    (env : CrawlEnv) (url : List Char)
    (hfetch : env.pageFetchOk url = true)
    (hpdf : ∀ t, find_pdf_tag (env.pageAnchors url) = some t → t.href ≠ none) :
    ∃ l, get_all_download_links uj env url = .ok l ∧
      l.supp = supp_link uj url (env.pageAnchors url) ∧
      l.peer = peer_link uj url (env.pageAnchors url) := by
  unfold get_all_download_links
  rw [if_pos hfetch]
  unfold extract_links
  cases ht : find_pdf_tag (env.pageAnchors url) with
  | none =>
    exact ⟨⟨pdf_fallback uj url (env.pageAnchors url),
      supp_link uj url (env.pageAnchors url),
      peer_link uj url (env.pageAnchors url)⟩, rfl, rfl, rfl⟩
  | some t =>
    dsimp only
    cases hh : t.href with
    | none => exact absurd hh (hpdf t ht)
    | some h =>
      exact ⟨⟨some (uj url h), supp_link uj url (env.pageAnchors url),
        peer_link uj url (env.pageAnchors url)⟩, rfl, rfl, rfl⟩

/-- Page without a primary pdf anchor but with supplementary and
peer-review anchors, used by the C7 witness. -/
def pageSuppPeer : List Anchor :=
  [⟨[], some (lc "/s.zip"), lc "Supplementary Information"⟩,
   ⟨[], some (lc "/p.pdf"), lc "Peer Review File"⟩]

/-- Environment serving `pageSuppPeer`. -/
def envSuppPeer : CrawlEnv :=
  ⟨true, [], fun _ => true, fun _ => pageSuppPeer, benignDl⟩

/-- C7 witness: supplementary and peer-review selection evaluated on a
concrete page with no pdf anchor. -/
theorem c7_supp_peer_selection_witness :
    ∃ l, get_all_download_links ujId envSuppPeer (lc "https://n/a") = .ok l ∧
      l.supp = supp_link ujId (lc "https://n/a") (envSuppPeer.pageAnchors (lc "https://n/a")) ∧
      l.peer = peer_link ujId (lc "https://n/a") (envSuppPeer.pageAnchors (lc "https://n/a")) :=
  c7_supp_peer_selection ujId envSuppPeer (lc "https://n/a") rfl
    (fun t ht => by
      rw [show find_pdf_tag (envSuppPeer.pageAnchors (lc "https://n/a")) = none
        from by decide] at ht
      exact Option.noConfusion ht)

/-! ### C8 and C9: orchestration lemmas -/

/-- A state already past the per-article exception point skips the
remaining download steps. -/
theorem doKind_raised (env : DlEnv) (st : StepResult) (link : Option (List Char))
    (folder pfx base : List Char) (h : st.raised = true) :
    doKind env st link folder pfx base = st := by
  unfold doKind
  rw [if_pos h]

/-- An absent link kind downloads nothing. -/
theorem doKind_none (env : DlEnv) (st : StepResult) (folder pfx base : List Char)
    (h : st.raised = false) :
    doKind env st none folder pfx base = st := by
  unfold doKind
  rw [if_neg (by simp [h])]

/-- When `os.makedirs` fails for the article folder, the download step
raises: no request is issued, the filesystem is untouched, and the
per-article state is marked raised. -/
theorem doKind_mkdirfail (env : DlEnv) (st : StepResult) (u : List Char)
    (folder pfx base : List Char)
    (hr : st.raised = false) (hm : env.mkdirFails folder = true) :
    doKind env st (some u) folder pfx base = ⟨st.fs, st.reqs, true⟩ := by
  unfold doKind
  rw [if_neg (by simp [hr])]
  dsimp only
  have hd : download_file env st.fs u folder pfx base = ⟨.error (), st.fs, 0⟩ := by
    unfold download_file
    rw [if_pos hm]
  rw [hd]
  simp

/-- When `os.makedirs` succeeds, the download step never raises; it
contributes the download's filesystem and request count. -/
theorem doKind_noraise (env : DlEnv) (st : StepResult) (u : List Char)
    (folder pfx base : List Char)
    (hr : st.raised = false) (hm : env.mkdirFails folder = false) :
    doKind env st (some u) folder pfx base
      = ⟨(download_file env st.fs u folder pfx base).fs,
         st.reqs + (download_file env st.fs u folder pfx base).reqs, false⟩ := by
  unfold doKind
  rw [if_neg (by simp [hr])]
  dsimp only
  cases hret : (download_file env st.fs u folder pfx base).ret with
  | error e =>
    cases e
    exact absurd hret (download_file_ret_not_error env st.fs u folder pfx base hm)
  | ok b => rfl

/-- A download step only ever adds paths to the filesystem. -/
theorem doKind_fs_mono (env : DlEnv) (st : StepResult) (link : Option (List Char))
    (folder pfx base : List Char) :
    ∀ q, q ∈ st.fs → q ∈ (doKind env st link folder pfx base).fs := by
  intro q hq
  unfold doKind
  split
  · exact hq
  · split
    · exact hq
    · dsimp only
      split
      · exact download_file_fs_mono env st.fs _ folder pfx base q hq
      · exact download_file_fs_mono env st.fs _ folder pfx base q hq

/-- Re-running one download step against a filesystem that already holds
everything the first run produced changes nothing: no request is issued
and the raised flag (a function of the environment alone) is reproduced. -/
theorem doKind_idem (env : DlEnv) (st : StepResult) (link : Option (List Char))
    (folder pfx base : List Char) (h : FS) (n : Nat)
    (hgu : ∀ u, env.getRaises u = false)
    (hou : ∀ p, env.openFails p = false)
    (hsub : ∀ q, q ∈ (doKind env st link folder pfx base).fs → q ∈ h) :
    doKind env ⟨h, n, st.raised⟩ link folder pfx base
      = ⟨h, n, (doKind env st link folder pfx base).raised⟩ := by
  cases hr : st.raised with
  | true =>
    rw [doKind_raised env ⟨h, n, true⟩ link folder pfx base rfl,
      doKind_raised env st link folder pfx base hr, hr]
  | false =>
    cases link with
    | none =>
      rw [doKind_none env ⟨h, n, false⟩ folder pfx base rfl,
        doKind_none env st folder pfx base hr, hr]
    | some u =>
      by_cases hm : env.mkdirFails folder = true
      · rw [doKind_mkdirfail env ⟨h, n, false⟩ u folder pfx base rfl hm,
          doKind_mkdirfail env st u folder pfx base hr hm]
      · have hm' : env.mkdirFails folder = false := by simpa using hm
        have hrun1 := doKind_noraise env st u folder pfx base hr hm'
        have hlp : local_path folder pfx base u ∈ h := by
          apply hsub
          rw [hrun1]
          exact download_file_creates env st.fs u folder pfx base hm' (hgu u)
            (hou _)
        rw [doKind_noraise env ⟨h, n, false⟩ u folder pfx base rfl hm']
        rw [download_file_skip env h u folder pfx base hm' hlp, hrun1]
        simp

/-- `doKind_idem` specialised to the fresh per-article starting state. -/
theorem doKind_idem_start (env : DlEnv) (fs0 : FS) (link : Option (List Char))
    (folder pfx base : List Char) (h : FS) (n : Nat)
    (hgu : ∀ u, env.getRaises u = false)
    (hou : ∀ p, env.openFails p = false)
    (hsub : ∀ q, q ∈ (doKind env ⟨fs0, 0, false⟩ link folder pfx base).fs → q ∈ h) :
    doKind env ⟨h, n, false⟩ link folder pfx base
      = ⟨h, n, (doKind env ⟨fs0, 0, false⟩ link folder pfx base).raised⟩ :=
  doKind_idem env ⟨fs0, 0, false⟩ link folder pfx base h n hgu hou hsub

/-- Re-running the three download steps of one article is a no-op when
the filesystem already holds everything the first run produced. -/
theorem doKind3_idem (env : DlEnv) (hgu : ∀ u, env.getRaises u = false)
    (hou : ∀ p, env.openFails p = false)
    (fs h : FS) (l1 l2 l3 : Option (List Char))
    (folder p1 p2 p3 base : List Char)
    (hsub : ∀ q,
      q ∈ (doKind env (doKind env (doKind env ⟨fs, 0, false⟩ l1 folder p1 base)
        l2 folder p2 base) l3 folder p3 base).fs → q ∈ h) :
    doKind env (doKind env (doKind env ⟨h, 0, false⟩ l1 folder p1 base)
        l2 folder p2 base) l3 folder p3 base
      = ⟨h, 0, (doKind env (doKind env (doKind env ⟨fs, 0, false⟩ l1 folder p1 base)
          l2 folder p2 base) l3 folder p3 base).raised⟩ := by
  have hsub2 : ∀ q,
      q ∈ (doKind env (doKind env ⟨fs, 0, false⟩ l1 folder p1 base)
        l2 folder p2 base).fs → q ∈ h :=
    fun q hq => hsub q (doKind_fs_mono env _ l3 folder p3 base q hq)
  have hsub1 : ∀ q, q ∈ (doKind env ⟨fs, 0, false⟩ l1 folder p1 base).fs → q ∈ h :=
    fun q hq => hsub2 q (doKind_fs_mono env _ l2 folder p2 base q hq)
  rw [doKind_idem_start env fs l1 folder p1 base h 0 hgu hou hsub1]
  rw [doKind_idem env (doKind env ⟨fs, 0, false⟩ l1 folder p1 base)
    l2 folder p2 base h 0 hgu hou hsub2]
  rw [doKind_idem env (doKind env (doKind env ⟨fs, 0, false⟩ l1 folder p1 base)
    l2 folder p2 base) l3 folder p3 base h 0 hgu hou hsub]

/-- Processing one article only ever adds paths to the filesystem. -/
theorem processArticle_fs_mono (uj : List Char → List Char → List Char)
    (env : CrawlEnv) (fs : FS) (card : ArticleCard) :
    ∀ q, q ∈ fs → q ∈ (processArticle uj env fs card).fs := by
  intro q hq
  unfold processArticle
  split
  · exact hq
  · split
    · exact hq
    · dsimp only
      split
      · exact hq
      · split
        · exact hq
        · exact doKind_fs_mono _ _ _ _ _ _ q (doKind_fs_mono _ _ _ _ _ _ q
            (doKind_fs_mono _ _ _ _ _ _ q hq))

/-- Re-processing one article against a filesystem that already holds
everything the first pass produced downloads nothing and reproduces the
raised flag. -/
theorem processArticle_idem (uj : List Char → List Char → List Char)
    (env : CrawlEnv) (fs h : FS) (card : ArticleCard)
    (hgu : ∀ u, env.dl.getRaises u = false)
    (hou : ∀ p, env.dl.openFails p = false)
    (hsub : ∀ q, q ∈ (processArticle uj env fs card).fs → q ∈ h) :
    processArticle uj env h card
      = ⟨h, 0, (processArticle uj env fs card).raised⟩ := by
  cases hta : card.titleA with
  | none => simp [processArticle, hta]
  | some a =>
    cases hah : a.href with
    | none => simp [processArticle, hta, hah]
    | some hr =>
      unfold processArticle at hsub ⊢
      rw [hta] at hsub ⊢
      dsimp only at hsub ⊢
      rw [hah] at hsub ⊢
      dsimp only at hsub ⊢
      cases hl : get_all_download_links uj env (uj base_site hr) with
      | error e =>
        rw [hl] at hsub
      | ok links =>
        rw [hl] at hsub
        dsimp only at hsub ⊢
        by_cases hemp : links = ⟨none, none, none⟩
        · rw [if_pos hemp] at hsub
          rw [if_pos hemp, if_pos hemp]
        · rw [if_neg hemp] at hsub
          rw [if_neg hemp, if_neg hemp]
          exact doKind3_idem env.dl hgu hou fs h links.pdf links.supp links.peer
            _ _ _ _ _ hsub

/-- Unfolding equation of the article loop on a non-empty card list. -/
theorem crawlLoop_cons (uj : List Char → List Char → List Char)
    (env : CrawlEnv) (fs : FS) (c : ArticleCard) (cs : List ArticleCard) :
    crawlLoop uj env fs (c :: cs)
      = ((crawlLoop uj env (processArticle uj env fs c).fs cs).1,
         (processArticle uj env fs c).reqs
           + (crawlLoop uj env (processArticle uj env fs c).fs cs).2) := rfl

/-- The article loop only ever adds paths to the filesystem. -/
theorem crawlLoop_fs_mono (uj : List Char → List Char → List Char)
    (env : CrawlEnv) :
    ∀ (cs : List ArticleCard) (fs : FS) (q : List Char),
      q ∈ fs → q ∈ (crawlLoop uj env fs cs).1 := by
  intro cs
  induction cs with
  | nil => intro fs q hq; exact hq
  | cons c cs ih =>
    intro fs q hq
    unfold crawlLoop
    dsimp only
    exact ih _ q (processArticle_fs_mono uj env fs c q hq)

/-- Re-running the whole article loop against the filesystem the first
run produced issues no download request and adds no file. -/
theorem crawlLoop_idem (uj : List Char → List Char → List Char)
    (env : CrawlEnv) (hgu : ∀ u, env.dl.getRaises u = false)
    (hou : ∀ p, env.dl.openFails p = false) :
    ∀ (cs : List ArticleCard) (fs h : FS),
      (∀ q, q ∈ (crawlLoop uj env fs cs).1 → q ∈ h) →
      crawlLoop uj env h cs = (h, 0) := by
  intro cs
  induction cs with
  | nil => intro fs h _; rfl
  | cons c cs ih =>
    intro fs h hsub
    have hsub' : ∀ q,
        q ∈ (crawlLoop uj env (processArticle uj env fs c).fs cs).1 → q ∈ h := by
      intro q hq
      apply hsub
      unfold crawlLoop
      exact hq
    have hpa : ∀ q, q ∈ (processArticle uj env fs c).fs → q ∈ h :=
      fun q hq => hsub' q (crawlLoop_fs_mono uj env cs _ q hq)
    have h1 := processArticle_idem uj env fs h c hgu hou hpa
    unfold crawlLoop
    dsimp only
    rw [h1]
    dsimp only
    rw [ih (processArticle uj env fs c).fs h hsub']
    simp

/-- Article card whose title anchor is well-formed, shared by the C8 and
C9 witnesses. -/
def cardGood : ArticleCard := ⟨some ⟨[], some (lc "/articles/a1"), lc "Title One"⟩⟩

/-- Concrete crawl world whose single pdf URL consistently fails to
download (the server answers the file GET with an error on every run):
deterministic, unchanged remote content. -/
def envPersistentFail : CrawlEnv :=
  ⟨true, [cardGood], fun _ => true, fun _ => pagePrimaryPdf,
   ⟨fun _ => false, fun _ => true, fun _ => false, fun _ => false⟩⟩

/-- C8 counterexample: against unchanged remote content in which one file
URL consistently fails, the first run downloads nothing (the failed GET
leaves no file), so the second run re-issues the same file-download
request — 1 request, not 0 — refuting the claimed idempotence. -/
theorem c8_counterexample :
    (main ujId envPersistentFail []).1 = [] ∧
    (main ujId envPersistentFail []).2 = 1 ∧
    (main ujId envPersistentFail (main ujId envPersistentFail []).1).2 = 1 := by
  decide

/-- C8 (amended): with the remote content unchanged AND every planned file
download able to put a file on disk — no file GET raises and no
destination file fails to open; a mid-stream failure, which leaves a
partial file, is still allowed — running the crawl a second time from the
filesystem the first run produced returns that filesystem unchanged — no
new file — and issues 0 file-download network requests: every download
step takes the existing-file skip path.  Without that proviso a
persistently failing URL is re-requested on every run
(`c8_counterexample`). -/
theorem c8_crawl_idempotent (uj : List Char → List Char → List Char)
    (env : CrawlEnv) (fs : FS)
    (hgu : ∀ u, env.dl.getRaises u = false)
    (hou : ∀ p, env.dl.openFails p = false) :
    main uj env (main uj env fs).1 = ((main uj env fs).1, 0) := by
  cases hf : env.fetchCollectionOk with
  | false => simp [main, hf]
  | true =>
    cases hcards : env.cards with
    | nil => simp [main, hf, hcards]
    | cons c cs =>
      simp only [main, hf, hcards, List.isEmpty_cons, if_true, Bool.false_eq_true,
        if_false]
      exact crawlLoop_idem uj env hgu hou (c :: cs) fs _ (fun q hq => hq)

/-- Concrete crawl world for the C8 witness. -/
def envRun : CrawlEnv :=
  ⟨true, [cardGood], fun _ => true, fun _ => pagePrimaryPdf, benignDl⟩

/-- C8 witness: the crawl evaluated twice on a concrete world. -/
theorem c8_crawl_idempotent_witness :
    main ujId envRun (main ujId envRun []).1 = ((main ujId envRun []).1, 0) :=
  c8_crawl_idempotent ujId envRun [] (fun _ => rfl) (fun _ => rfl)

/-- C9 (confirmed): the `for article in articles` loop catches any
exception raised while processing one article and continues with the
remaining articles — the run's outcome is the raising article's partial
effects followed by the untouched processing of the rest — whereas a
failure fetching the initial collection page ends the entire run with no
article processed. -/
theorem c9_error_isolation (uj : List Char → List Char → List Char)
    (env : CrawlEnv) (fs : FS) :
    (∀ c cs, env.fetchCollectionOk = true → env.cards = c :: cs →
      (processArticle uj env fs c).raised = true →
      main uj env fs
        = ((crawlLoop uj env (processArticle uj env fs c).fs cs).1,
           (processArticle uj env fs c).reqs
             + (crawlLoop uj env (processArticle uj env fs c).fs cs).2)) ∧
    (env.fetchCollectionOk = false → main uj env fs = (fs, 0)) := by
  constructor
  · intro c cs hf hc _hraised
    unfold main
    rw [hc, if_pos hf, if_neg (by simp)]
    exact crawlLoop_cons uj env fs c cs
  · intro hf
    unfold main
    rw [if_neg (by simp [hf])]

/-- Article card whose title anchor lacks an `href`: processing it raises
`KeyError` inside the per-article `try`. -/
def cardBad : ArticleCard := ⟨some ⟨[], none, lc "Broken"⟩⟩

/-- Concrete crawl world whose first article raises. -/
def envC9 : CrawlEnv :=
  ⟨true, [cardBad, cardGood], fun _ => true, fun _ => pagePrimaryPdf, benignDl⟩

/-- Concrete crawl world whose collection-page fetch fails. -/
def envC9fail : CrawlEnv :=
  ⟨false, [cardGood], fun _ => true, fun _ => pagePrimaryPdf, benignDl⟩

/-- C9 witness: a concrete raising first article does not stop the run,
and a concrete failed collection fetch ends it. -/
theorem c9_error_isolation_witness :
    main ujId envC9 []
      = ((crawlLoop ujId envC9 (processArticle ujId envC9 [] cardBad).fs [cardGood]).1,
         (processArticle ujId envC9 [] cardBad).reqs
           + (crawlLoop ujId envC9 (processArticle ujId envC9 [] cardBad).fs [cardGood]).2) ∧
    main ujId envC9fail [] = ([], 0) :=
  ⟨(c9_error_isolation ujId envC9 []).1 cardBad [cardGood] rfl rfl (by decide),
   (c9_error_isolation ujId envC9fail []).2 rfl⟩

end Crawl
